import Mathlib

/-!
Verification of the Tock kernel IPC driver (`kernel/src/ipc.rs`).

The driver is shallowly embedded: the syscall `command` entry point and the
deferred `schedule_upcall` dispatch are translated directly from the Rust
source.  The collaborators the driver calls into (grant regions, the process
table, the task queue, upcall scheduling and the MPU) are not part of the
source file; they are modelled from the specification's description of their
contracts, and every such definition carries a doc comment saying so.

State is explicit: a `KernelState` holds the list of live processes, each
carrying the observable bookkeeping the driver touches (grant allocation,
allow buffers, task queue, scheduled upcalls, MPU regions).
-/

namespace TockIPC

/-- Kernel error codes (the kernel's `ErrorCode` enum); only the variants the
IPC driver mentions or returns are distinguished. -/
inductive ErrorCode where
  | FAIL
  | OFF
  | RESERVE
  | ALREADY
  | BUSY
  | INVAL
  | SIZE
  | CANCEL
  | NOMEM
  | NOSUPPORT
  | NODEVICE
deriving DecidableEq, Repr

/-- Return value of a syscall `command` (the kernel's `CommandReturn`). -/
inductive CommandReturn where
  | success
  | success_u32 (v : Nat)
  | failure (e : ErrorCode)
deriving DecidableEq, Repr

/-- Enum to mark which type of upcall is scheduled for the IPC mechanism
(`IPCUpcallType` in ipc.rs). -/
inductive IPCUpcallType where
  | Service
  | Client
deriving DecidableEq, Repr

/-- Modelled from the spec: `process::Error` values surfaced by grant entry.
Entry for a dead process fails (`NoSuchApp`), re-entrant entry for the same
process fails fast (`AlreadyInUse`), and on-demand allocation of the record
can fail when kernel memory is exhausted (`KernelError`). -/
inductive ProcessError where
  | NoSuchApp
  | InactiveApp
  | AddressOutOfBounds
  | KernelError
  | AlreadyInUse
deriving DecidableEq, Repr

/-- A read-write process buffer as the driver observes it: an address and a
length (the driver only ever reads `slice.ptr()` and `slice.len()`). -/
structure ProcessBuffer where
  ptr : Nat
  len : Nat
deriving DecidableEq, Repr

/-- A queued unit of work on a process's task queue.  The IPC driver only
enqueues `Task::IPC((initiator, upcall type))`. -/
inductive Task where
  | IPC (initiator : Nat) (cb_type : IPCUpcallType)
deriving DecidableEq, Repr

/-- Modelled from the spec: the observable per-process kernel bookkeeping the
IPC driver interacts with.  `pid` is the wire identity of the process,
`index` its slot index (§3: valid exactly while the process is live; a
terminated process simply has no entry in the process list).  `grantAllocated`
records whether this process's IPC grant record has been allocated (§4.1:
first entry allocates on demand).  `roSearch` is the content of read-only
allow buffer 0 (`none` when the allow binding was never set up).  `rwAllow`
maps allow indices to read-write buffers.  `enqueueErr` models the task-queue
primitive's answer for this process (`none` = enqueue succeeds; `some e` =
enqueue fails with `e`, e.g. `OFF` when the relevant upcall was disabled).
`upcallOk` models whether scheduling an upcall on this process succeeds
(false = slot unsubscribed / callback queue full).  `tasks`,
`scheduledUpcalls` and `mpuRegions` record the effects the driver produces. -/
structure Process where
  pid : Nat
  index : Nat
  name : List Nat
  grantAllocated : Bool
  roSearch : Option (List Nat)
  rwAllow : List (Nat × ProcessBuffer)
  enqueueErr : Option ErrorCode
  tasks : List Task
  upcallOk : Bool
  scheduledUpcalls : List (Nat × Nat × Nat × Nat)
  mpuRegions : List (Nat × Nat × Nat)
deriving DecidableEq, Repr

/-- The kernel state the IPC driver can observe: the live processes in scan
order, plus whether grant-region allocation can currently succeed. -/
structure KernelState where
  procs : List Process
  canAlloc : Bool
deriving DecidableEq, Repr

/-- Mark a process's IPC grant record as allocated. -/
def setAlloc (p : Process) : Process := { p with grantAllocated := true }

/-- Modelled from the spec: resolve a `ProcessId` to the live process it
identifies, `none` once the process has terminated. -/
def findProc (s : KernelState) (pid : Nat) : Option Process :=
  s.procs.find? (fun q => q.pid == pid)

/-- Replace the first process with the given id (process ids are unique in a
real process table; updates touch exactly the entry `findProc` resolves).
The process identity is pinned: no kernel-data update ever changes which
process a record belongs to. -/
def updateList : List Process → Nat → (Process → Process) → List Process
  | [], _, _ => []
  | a :: rest, pid, f =>
    if a.pid == pid then { f a with pid := a.pid } :: rest
    else a :: updateList rest pid f

/-- Apply an update to the process with the given id. -/
def updateProc (s : KernelState) (pid : Nat) (f : Process → Process) : KernelState :=
  { s with procs := updateList s.procs pid f }

/-- Modelled from the spec (§3): `ProcessId::index()` — the slot index while
the process is live, `None` for a stale handle. -/
def pidIndex (s : KernelState) (pid : Nat) : Option Nat :=
  (findProc s pid).map (fun p => p.index)

/-- Modelled from the spec (§4.1): entering a process's grant.  Entry for a
dead process fails; the first entry for a live process allocates its record
on demand, which fails when kernel memory is exhausted.  On success it yields
the process's kernel data and the (possibly updated) state. -/
def grantEnter (s : KernelState) (pid : Nat) :
    Except ProcessError (Process × KernelState) :=
  match findProc s pid with
  | none => .error .NoSuchApp
  | some p =>
    if p.grantAllocated then .ok (p, s)
    else if s.canAlloc then .ok (setAlloc p, updateProc s pid setAlloc)
    else .error .KernelError

/-- `SERVICE_UPCALL_NUM` from ipc.rs: the subscribe number of the service
upcall. -/
def SERVICE_UPCALL_NUM : Nat := 0

/-- `CLIENT_UPCALL_NUM_BASE` from ipc.rs: the subscribe number of the first
client upcall. -/
def CLIENT_UPCALL_NUM_BASE : Nat := 1

/-- `ro_allow::SEARCH` from ipc.rs: the read-only allow buffer holding the
discovery name fragment. -/
def ro_allow_SEARCH : Nat := 0

/-- Modelled from the spec (§6): look up the read-write buffer allow-bound at
a given index (`get_readwrite_processbuffer`); `none` when no buffer is bound
there or it cannot be read. -/
def lookupRw (l : List (Nat × ProcessBuffer)) (i : Nat) : Option ProcessBuffer :=
  (l.find? (fun x => x.1 == i)).map (fun x => x.2)

/-- Modelled from the spec (§6): schedule an upcall on a process
(`schedule_upcall` on the grant kernel data).  Scheduling can fail — the slot
was never subscribed or the callback queue is full — modelled by the
process's `upcallOk` flag; on failure nothing is recorded. -/
def scheduleUpcallOn (s : KernelState) (pid slot a b c : Nat) : KernelState :=
  updateProc s pid (fun q =>
    if q.upcallOk then
      { q with scheduledUpcalls := q.scheduledUpcalls ++ [(slot, a, b, c)] }
    else q)

/-- Result of running kernel code that may hit a Rust `panic!`. -/
inductive KResult (α : Type) where
  | ok (a : α)
  | panicked (msg : String)
deriving DecidableEq, Repr

/-- The body of the outer `enter` closure of `IPC::schedule_upcall`
(ipc.rs lines 101-137), given the already computed upcall number
`to_schedule`: nested entry into the initiator's grant, buffer lookup, MPU
installation and upcall scheduling.  The nested entry into `called_from` is
re-entrant when it equals `schedule_on` and then fails fast (§4.1). -/
def schedule_upcall_inner (s : KernelState) (schedule_on called_from to_schedule : Nat) :
    Except ProcessError Unit × KernelState :=
  if called_from == schedule_on then (.error .AlreadyInUse, s)
  else
    match grantEnter s called_from with
    | .error e => (.error e, s)
    | .ok (called_from_kernel_data, s2) =>
      match pidIndex s2 schedule_on with
      | none => (.ok (), s2)
      | some i =>
        match pidIndex s2 called_from with
        | none => (.ok (), s2)
        | some called_from_id =>
          match lookupRw called_from_kernel_data.rwAllow i with
          | some slice =>
            (.ok (), scheduleUpcallOn
              (updateProc s2 schedule_on (fun q =>
                { q with mpuRegions := q.mpuRegions ++ [(slice.ptr, slice.len, slice.len)] }))
              schedule_on to_schedule called_from_id slice.len slice.ptr)
          | none =>
            (.ok (), scheduleUpcallOn s2 schedule_on to_schedule called_from_id 0 0)

/-- `IPC::schedule_upcall` (ipc.rs lines 86-140): enter the target's grant,
compute the upcall number from the tag — panicking for a Client-tagged task
whose initiator's index no longer resolves — then run the nested dispatch;
`.and_then(|x| x)` flattens the nested results. -/
def schedule_upcall (s : KernelState) (schedule_on called_from : Nat)
    (cb_type : IPCUpcallType) : KResult (Except ProcessError Unit × KernelState) :=
  match grantEnter s schedule_on with
  | .error e => .ok (.error e, s)
  | .ok (_, s1) =>
    match cb_type with
    | .Service => .ok (schedule_upcall_inner s1 schedule_on called_from SERVICE_UPCALL_NUM)
    | .Client =>
      match pidIndex s1 called_from with
      | some i => .ok (schedule_upcall_inner s1 schedule_on called_from (i + CLIENT_UPCALL_NUM_BASE))
      | none => .panicked "Invalid app issued IPC request"

/-- The name comparison of discovery (ipc.rs lines 190-194): equal length and
pointwise equal bytes. -/
def namesMatch (s slice : List Nat) : Bool :=
  s.length == slice.length && (List.zip s slice).all (fun c => c.1 == c.2)

/-- Modelled from the spec (§6): `kernel.process_until` — scan live processes
in order, returning the first `some` the predicate produces. -/
def process_until {α : Type} (s : KernelState) (f : Process → Option α) : Option α :=
  s.procs.findSome? f

/-- The discovery scan of `command` case 1 (ipc.rs lines 185-204): first
process whose name matches the fragment yields its slot index, otherwise
`NODEVICE`. -/
def discover (s : KernelState) (slice : List Nat) : CommandReturn :=
  (process_until s (fun p =>
    if namesMatch p.name slice then some (CommandReturn.success_u32 p.index)
    else none)).getD (CommandReturn.failure ErrorCode.NODEVICE)

/-- `command` cases 2 and 3 (ipc.rs lines 211-272): resolve the target slot
index to a live process, enqueue an IPC task on it, and report the outcome,
treating an `OFF` enqueue failure as success.  The task-queue primitive is
modelled from the spec (§6) by the target's `enqueueErr` field. -/
def notify (s : KernelState) (target_id appid : Nat) (cb_type : IPCUpcallType) :
    CommandReturn × KernelState :=
  match process_until s (fun p => if p.index == target_id then some p.pid else none) with
  | none => (CommandReturn.failure ErrorCode.INVAL, s)
  | some otherapp =>
    match findProc s otherapp with
    | none => (CommandReturn.failure ErrorCode.INVAL, s)
    | some target =>
      match target.enqueueErr with
      | none =>
        (CommandReturn.success,
          updateProc s otherapp (fun q => { q with tasks := q.tasks ++ [Task.IPC appid cb_type] }))
      | some e =>
        if e == ErrorCode.OFF then (CommandReturn.success, s)
        else (CommandReturn.failure e, s)

/-- `SyscallDriver::command` for the IPC driver (ipc.rs lines 167-275). -/
def command (s : KernelState) (command_number target_id appid : Nat) :
    CommandReturn × KernelState :=
  match command_number with
  | 0 => (CommandReturn.success, s)
  | 1 =>
    match grantEnter s appid with
    | .error _ => (CommandReturn.failure ErrorCode.NOMEM, s)
    | .ok (kernel_data, s1) =>
      match kernel_data.roSearch with
      | none => (CommandReturn.failure ErrorCode.INVAL, s1)
      | some slice => (discover s1 slice, s1)
  | 2 => notify s target_id appid IPCUpcallType.Service
  | 3 => notify s target_id appid IPCUpcallType.Client
  | _ => (CommandReturn.failure ErrorCode.NOSUPPORT, s)

/-- The discovery result as the specification words it: the slot index of the
first live process whose static name is byte-for-byte equal (content and
length) to the fragment, else `NODEVICE`. -/
def discoverSpec (s : KernelState) (slice : List Nat) : CommandReturn :=
  match s.procs.find? (fun p => p.name == slice) with
  | some p => CommandReturn.success_u32 p.index
  | none => CommandReturn.failure ErrorCode.NODEVICE

/-- The upcall slot as a pure function of the tag and the initiator's slot
index, as the specification words it: 0 for Service, `i + 1` for Client. -/
def upcallSlotFor : IPCUpcallType → Nat → Nat
  | .Service, _ => SERVICE_UPCALL_NUM
  | .Client, i => i + CLIENT_UPCALL_NUM_BASE

/-- Concrete live process "alpha" at slot 2, grant allocated, used for
concrete evaluations. -/
def alphaProc : Process :=
  { pid := 1, index := 2, name := [97, 108, 112, 104, 97],
    grantAllocated := true, roSearch := none, rwAllow := [],
    enqueueErr := none, tasks := [], upcallOk := true,
    scheduledUpcalls := [], mpuRegions := [] }

/-- Concrete live process "beta" at slot 5 with a discovery fragment "alpha"
allow-bound at read-only index 0 and a 16-byte read-write buffer allow-bound
at index 2 (alpha's slot). -/
def betaProc : Process :=
  { pid := 4, index := 5, name := [98, 101, 116, 97],
    grantAllocated := true, roSearch := some [97, 108, 112, 104, 97],
    rwAllow := [(2, { ptr := 4096, len := 16 })],
    enqueueErr := none, tasks := [], upcallOk := true,
    scheduledUpcalls := [], mpuRegions := [] }

/-- Concrete live process whose upcall scheduling fails (slot never
subscribed). -/
def gammaProc : Process :=
  { pid := 7, index := 3, name := [103],
    grantAllocated := true, roSearch := none, rwAllow := [],
    enqueueErr := none, tasks := [], upcallOk := false,
    scheduledUpcalls := [], mpuRegions := [] }

/-- Concrete live process whose IPC grant record is not yet allocated. -/
def deltaProc : Process :=
  { pid := 5, index := 0, name := [100],
    grantAllocated := false, roSearch := some [], rwAllow := [],
    enqueueErr := none, tasks := [], upcallOk := true,
    scheduledUpcalls := [], mpuRegions := [] }

/-- Concrete live process with no discovery buffer and no grant record. -/
def epsProc : Process :=
  { pid := 6, index := 1, name := [],
    grantAllocated := false, roSearch := none, rwAllow := [],
    enqueueErr := none, tasks := [], upcallOk := true,
    scheduledUpcalls := [], mpuRegions := [] }

/-- Two live processes, allocation possible. -/
def sEx : KernelState := { procs := [alphaProc, betaProc], canAlloc := true }

/-- A state whose first process has a failing upcall slot. -/
def sOff : KernelState := { procs := [gammaProc, betaProc], canAlloc := true }

/-- A single live process; any other process id is stale. -/
def sC1 : KernelState := { procs := [alphaProc], canAlloc := true }

/-- A state where the caller's grant record is unallocated but allocation
can succeed. -/
def sC7 : KernelState := { procs := [deltaProc], canAlloc := true }

/-- A state where the caller's grant record is unallocated and allocation
fails (kernel memory exhausted). -/
def sC2 : KernelState := { procs := [epsProc], canAlloc := false }

/-- A process found by id carries that id. -/
theorem findProc_pid {s : KernelState} {pid : Nat} {p : Process}
    (h : findProc s pid = some p) : p.pid = pid := by
  have h2 := List.find?_some h
  simpa using h2

/-- Setting the allocation flag changes no other field; on an already
allocated record it is the identity. -/
theorem setAlloc_of_allocated {p : Process} (h : p.grantAllocated = true) :
    setAlloc p = p := by
  cases p
  simp_all [setAlloc]

/-- `updateProc` keeps `canAlloc`. -/
theorem canAlloc_updateProc (s : KernelState) (pid : Nat) (f : Process → Process) :
    (updateProc s pid f).canAlloc = s.canAlloc := rfl

/-- Re-pinning a record's own pid is the identity. -/
theorem withPid_self (p : Process) : ({ p with pid := p.pid } : Process) = p := by
  cases p
  rfl

/-- Updating the process found at `pid` makes `findProc` return the updated
record (with its identity pinned). -/
theorem updateList_find_self {l : List Process} {pid : Nat} {f : Process → Process}
    {p : Process} (h : l.find? (fun q => q.pid == pid) = some p) :
    (updateList l pid f).find? (fun q => q.pid == pid) =
      some { f p with pid := p.pid } := by
  induction l with
  | nil => simp [List.find?] at h
  | cons a rest ih =>
    cases hpa : (a.pid == pid) with
    | true =>
      have hcons : List.find? (fun q => q.pid == pid) (a :: rest) = some a :=
        List.find?_cons_of_pos _ hpa
      rw [hcons] at h
      cases h
      have hfa : (({ f p with pid := p.pid } : Process).pid == pid) = true := hpa
      have hcons2 : List.find? (fun q => q.pid == pid)
          (({ f p with pid := p.pid } : Process) :: rest) =
          some { f p with pid := p.pid } :=
        List.find?_cons_of_pos _ hfa
      simp [updateList, hpa, hcons2]
    | false =>
      have hcons : List.find? (fun q => q.pid == pid) (a :: rest) =
          List.find? (fun q => q.pid == pid) rest :=
        List.find?_cons_of_neg _ (by simp [hpa])
      rw [hcons] at h
      have hcons2 : List.find? (fun q => q.pid == pid) (a :: updateList rest pid f) =
          List.find? (fun q => q.pid == pid) (updateList rest pid f) :=
        List.find?_cons_of_neg _ (by simp [hpa])
      simp only [updateList, hpa, if_false, Bool.false_eq_true]
      rw [hcons2]
      exact ih h

/-- Updating the process at `pid` leaves lookups of any other id unchanged. -/
theorem updateList_find_other {l : List Process} {pid pid' : Nat} {f : Process → Process}
    (hne : pid' ≠ pid) :
    (updateList l pid f).find? (fun q => q.pid == pid') =
      l.find? (fun q => q.pid == pid') := by
  induction l with
  | nil => simp [updateList]
  | cons a rest ih =>
    cases hpa : (a.pid == pid) with
    | true =>
      have ha : a.pid = pid := by simpa using hpa
      have h1 : (a.pid == pid') = false := by
        simp [ha]
        exact fun hc => hne hc.symm
      have h2 : (({ f a with pid := a.pid } : Process).pid == pid') = false := h1
      have hcons : List.find? (fun q => q.pid == pid')
          (({ f a with pid := a.pid } : Process) :: rest) =
          List.find? (fun q => q.pid == pid') rest :=
        List.find?_cons_of_neg _ (by simp [h2])
      have hcons' : List.find? (fun q => q.pid == pid') (a :: rest) =
          List.find? (fun q => q.pid == pid') rest :=
        List.find?_cons_of_neg _ (by simp [h1])
      simp only [updateList, hpa, if_true]
      rw [hcons, hcons']
    | false =>
      simp only [updateList, hpa, if_false, Bool.false_eq_true]
      cases hpa' : (a.pid == pid') with
      | true =>
        have hcons : List.find? (fun q => q.pid == pid') (a :: updateList rest pid f) =
            some a := List.find?_cons_of_pos _ hpa'
        have hcons' : List.find? (fun q => q.pid == pid') (a :: rest) = some a :=
          List.find?_cons_of_pos _ hpa'
        rw [hcons, hcons']
      | false =>
        have hcons : List.find? (fun q => q.pid == pid') (a :: updateList rest pid f) =
            List.find? (fun q => q.pid == pid') (updateList rest pid f) :=
          List.find?_cons_of_neg _ (by simp [hpa'])
        have hcons' : List.find? (fun q => q.pid == pid') (a :: rest) =
            List.find? (fun q => q.pid == pid') rest :=
          List.find?_cons_of_neg _ (by simp [hpa'])
        rw [hcons, hcons']
        exact ih

/-- State-level version of `updateList_find_self`. -/
theorem findProc_update_self {s : KernelState} {pid : Nat} {f : Process → Process}
    {p : Process} (h : findProc s pid = some p) :
    findProc (updateProc s pid f) pid = some { f p with pid := p.pid } :=
  updateList_find_self h

/-- State-level version of `updateList_find_other`. -/
theorem findProc_update_other {s : KernelState} {pid pid' : Nat} {f : Process → Process}
    (hne : pid' ≠ pid) :
    findProc (updateProc s pid f) pid' = findProc s pid' :=
  updateList_find_other hne

/-- Successful grant entry, uniformly over the already-allocated and the
freshly-allocated case: the kernel data handed to the closure is the found
process with its allocation flag set, `canAlloc` is unchanged, the entered
process is subsequently found with the flag set, and no other process
changes. -/
theorem grantEnter_ok {s : KernelState} {pid : Nat} {p : Process}
    (hp : findProc s pid = some p)
    (he : p.grantAllocated = true ∨ s.canAlloc = true) :
    ∃ s1, grantEnter s pid = .ok (setAlloc p, s1) ∧
      s1.canAlloc = s.canAlloc ∧
      findProc s1 pid = some (setAlloc p) ∧
      (∀ pid', pid' ≠ pid → findProc s1 pid' = findProc s pid') ∧
      (s1 = s ∨ s1 = updateProc s pid setAlloc) := by
  unfold grantEnter
  rw [hp]
  cases hg : p.grantAllocated with
  | true =>
    refine ⟨s, ?_, rfl, ?_, fun pid' _ => rfl, Or.inl rfl⟩
    · rw [setAlloc_of_allocated hg]
      simp [hg]
    · rw [setAlloc_of_allocated hg]
      exact hp
  | false =>
    cases hc : s.canAlloc with
    | false =>
      rcases he with he | he
      · rw [hg] at he; cases he
      · rw [hc] at he; cases he
    | true =>
      refine ⟨updateProc s pid setAlloc, ?_, hc, ?_, ?_, Or.inr rfl⟩
      · simp [hg, hc]
      · exact findProc_update_self hp
      · exact fun pid' hne => findProc_update_other hne

/-- Effect of the nested dispatch body `schedule_upcall_inner` when the
target and the initiator are distinct live processes and the initiator's
grant can be entered: it returns cleanly, the target gains exactly the MPU
region and (when upcall scheduling succeeds) the upcall determined by the
initiator's buffer at the target's slot index, and nothing else changes. -/
theorem inner_effects {s1 : KernelState} {tgt ini slot : Nat} {pT1 pF : Process}
    (hT : findProc s1 tgt = some pT1) (hF : findProc s1 ini = some pF)
    (hne : tgt ≠ ini)
    (hFe : pF.grantAllocated = true ∨ s1.canAlloc = true) :
    ∃ s', schedule_upcall_inner s1 tgt ini slot = (.ok (), s') ∧
      (∃ qT, findProc s' tgt = some qT ∧
        qT.index = pT1.index ∧ qT.tasks = pT1.tasks ∧
        qT.mpuRegions = pT1.mpuRegions ++
          (match lookupRw pF.rwAllow pT1.index with
           | some b => [(b.ptr, b.len, b.len)]
           | none => []) ∧
        qT.scheduledUpcalls = pT1.scheduledUpcalls ++
          (if pT1.upcallOk then
            (match lookupRw pF.rwAllow pT1.index with
             | some b => [(slot, pF.index, b.len, b.ptr)]
             | none => [(slot, pF.index, 0, 0)])
           else [])) ∧
      (∃ qF, findProc s' ini = some qF ∧ qF.index = pF.index ∧
        qF.scheduledUpcalls = pF.scheduledUpcalls ∧ qF.mpuRegions = pF.mpuRegions ∧
        qF.tasks = pF.tasks) ∧
      (∀ pid', pid' ≠ tgt → pid' ≠ ini → findProc s' pid' = findProc s1 pid') := by
  have hbeq : (ini == tgt) = false := beq_eq_false_iff_ne.mpr (Ne.symm hne)
  obtain ⟨s2, hge, hca2, hfini2, hother2, -⟩ := grantEnter_ok hF hFe
  have hftgt2 : findProc s2 tgt = some pT1 := by
    rw [hother2 tgt hne]; exact hT
  have hpiT : pidIndex s2 tgt = some pT1.index := by
    unfold pidIndex; rw [hftgt2]; rfl
  have hpiI : pidIndex s2 ini = some pF.index := by
    unfold pidIndex; rw [hfini2]; rfl
  have hrw : (setAlloc pF).rwAllow = pF.rwAllow := rfl
  cases hb : lookupRw pF.rwAllow pT1.index with
  | some b =>
    simp only [schedule_upcall_inner, hbeq, Bool.false_eq_true, if_false, hge, hpiT, hpiI,
      hrw, hb, scheduleUpcallOn]
    refine ⟨_, rfl, ?_, ?_, ?_⟩
    · refine ⟨_, findProc_update_self (findProc_update_self hftgt2), ?_, ?_, ?_, ?_⟩ <;>
        cases hOk : pT1.upcallOk <;> simp [hOk]
    · refine ⟨setAlloc pF, ?_, rfl, rfl, rfl, rfl⟩
      rw [findProc_update_other (Ne.symm hne), findProc_update_other (Ne.symm hne)]
      exact hfini2
    · intro pid' h1 h2
      rw [findProc_update_other h1, findProc_update_other h1]
      exact hother2 pid' h2
  | none =>
    simp only [schedule_upcall_inner, hbeq, Bool.false_eq_true, if_false, hge, hpiT, hpiI,
      hrw, hb, scheduleUpcallOn]
    refine ⟨_, rfl, ?_, ?_, ?_⟩
    · refine ⟨_, findProc_update_self hftgt2, ?_, ?_, ?_, ?_⟩ <;>
        cases hOk : pT1.upcallOk <;> simp [hOk]
    · refine ⟨setAlloc pF, ?_, rfl, rfl, rfl, rfl⟩
      rw [findProc_update_other (Ne.symm hne)]
      exact hfini2
    · intro pid' h1 h2
      rw [findProc_update_other h1]
      exact hother2 pid' h2

/-- Effect of a full `schedule_upcall` dispatch when the target and the
initiator are distinct live processes and both grants can be entered: the
slot is `upcallSlotFor` of the tag and the initiator's index, and the effects
of `inner_effects` apply. -/
theorem dispatch_effects {s : KernelState} {tgt ini : Nat} {pT pF : Process}
    (cb : IPCUpcallType)
    (hT : findProc s tgt = some pT) (hF : findProc s ini = some pF)
    (hne : tgt ≠ ini)
    (hTe : pT.grantAllocated = true ∨ s.canAlloc = true)
    (hFe : pF.grantAllocated = true ∨ s.canAlloc = true) :
    ∃ s', schedule_upcall s tgt ini cb = .ok (.ok (), s') ∧
      (∃ qT, findProc s' tgt = some qT ∧
        qT.index = pT.index ∧ qT.tasks = pT.tasks ∧
        qT.mpuRegions = pT.mpuRegions ++
          (match lookupRw pF.rwAllow pT.index with
           | some b => [(b.ptr, b.len, b.len)]
           | none => []) ∧
        qT.scheduledUpcalls = pT.scheduledUpcalls ++
          (if pT.upcallOk then
            (match lookupRw pF.rwAllow pT.index with
             | some b => [(upcallSlotFor cb pF.index, pF.index, b.len, b.ptr)]
             | none => [(upcallSlotFor cb pF.index, pF.index, 0, 0)])
           else [])) ∧
      (∃ qF, findProc s' ini = some qF ∧ qF.index = pF.index ∧
        qF.scheduledUpcalls = pF.scheduledUpcalls ∧ qF.mpuRegions = pF.mpuRegions ∧
        qF.tasks = pF.tasks) ∧
      (∀ pid', pid' ≠ tgt → pid' ≠ ini → findProc s' pid' = findProc s pid') := by
  obtain ⟨s1, hge, hca1, hftgt1, hother1, -⟩ := grantEnter_ok hT hTe
  have hfini1 : findProc s1 ini = some pF := by
    rw [hother1 ini (Ne.symm hne)]; exact hF
  have hpiI1 : pidIndex s1 ini = some pF.index := by
    unfold pidIndex; rw [hfini1]; rfl
  have hFe1 : pF.grantAllocated = true ∨ s1.canAlloc = true := by
    rw [hca1]; exact hFe
  have hstep : schedule_upcall s tgt ini cb =
      .ok (schedule_upcall_inner s1 tgt ini (upcallSlotFor cb pF.index)) := by
    cases cb with
    | Service => simp [schedule_upcall, hge, upcallSlotFor]
    | Client => simp [schedule_upcall, hge, hpiI1, upcallSlotFor]
  obtain ⟨s', hrun, hq, hqf, hoth⟩ := inner_effects hftgt1 hfini1 hne hFe1
  refine ⟨s', ?_, ?_, ?_, ?_⟩
  · rw [hstep, hrun]
  · exact hq
  · exact hqf
  · intro pid' h1 h2
    rw [hoth pid' h1 h2]
    exact hother1 pid' h1

/-- The driver's length-plus-pointwise byte comparison holds exactly for
equal lists. -/
theorem namesMatch_iff (a : List Nat) : ∀ b : List Nat, namesMatch a b = true ↔ a = b := by
  induction a with
  | nil =>
    intro b
    cases b <;> simp [namesMatch]
  | cons x xs ih =>
    intro b
    cases b with
    | nil => simp [namesMatch]
    | cons y ys =>
      simp only [namesMatch, List.length_cons, List.zip_cons_cons, List.all_cons,
        Bool.and_eq_true, beq_iff_eq, List.cons.injEq] at ih ⊢
      constructor
      · rintro ⟨hlen, hxy, hall⟩
        exact ⟨hxy, (ih ys).mp ⟨by omega, hall⟩⟩
      · rintro ⟨hxy, hxs⟩
        have h2 := (ih ys).mpr hxs
        exact ⟨by omega, hxy, h2.2⟩

/-- Boolean form of `namesMatch_iff`: the comparison is boolean list
equality. -/
theorem namesMatch_eq_beq (a b : List Nat) : namesMatch a b = (a == b) := by
  cases hv : namesMatch a b with
  | true =>
    have h := (namesMatch_iff a b).mp hv
    simp [h]
  | false =>
    have hne : a ≠ b := by
      intro he
      rw [(namesMatch_iff a b).mpr he] at hv
      cases hv
    rw [beq_eq_false_iff_ne.mpr hne]

/-- The discovery scan computes exactly the spec-worded discovery result. -/
theorem discover_eq_spec (s : KernelState) (slice : List Nat) :
    discover s slice = discoverSpec s slice := by
  unfold discover discoverSpec process_until
  induction s.procs with
  | nil => rfl
  | cons a rest ih =>
    cases hm : (a.name == slice) with
    | true =>
      have hnm : namesMatch a.name slice = true := by rw [namesMatch_eq_beq]; exact hm
      have h1 : List.find? (fun p => p.name == slice) (a :: rest) = some a :=
        List.find?_cons_of_pos _ hm
      simp [List.findSome?_cons, hnm, h1]
    | false =>
      have hnm : namesMatch a.name slice = false := by rw [namesMatch_eq_beq]; exact hm
      have h1 : List.find? (fun p => p.name == slice) (a :: rest) =
          List.find? (fun p => p.name == slice) rest :=
        List.find?_cons_of_neg _ (by simp [hm])
      simp only [List.findSome?_cons, hnm, h1, Bool.false_eq_true, if_false]
      exact ih

/-- List-level core of `discoverSpec_update`: marking one grant record
allocated changes neither which process the name scan finds nor its slot
index. -/
theorem discoverSpecList_update (pid : Nat) (slice : List Nat) : ∀ l : List Process,
    (match (updateList l pid setAlloc).find? (fun p => p.name == slice) with
     | some p => CommandReturn.success_u32 p.index
     | none => CommandReturn.failure ErrorCode.NODEVICE) =
    (match l.find? (fun p => p.name == slice) with
     | some p => CommandReturn.success_u32 p.index
     | none => CommandReturn.failure ErrorCode.NODEVICE) := by
  intro l
  induction l with
  | nil => rfl
  | cons a rest ih =>
    cases hpa : (a.pid == pid) with
    | true =>
      cases hm : (a.name == slice) with
      | true =>
        have hm2 : (({ setAlloc a with pid := a.pid } : Process).name == slice) = true := hm
        have h1 : List.find? (fun p => p.name == slice)
            (({ setAlloc a with pid := a.pid } : Process) :: rest) =
            some { setAlloc a with pid := a.pid } :=
          List.find?_cons_of_pos _ hm2
        have h2 : List.find? (fun p => p.name == slice) (a :: rest) = some a :=
          List.find?_cons_of_pos _ hm
        simp only [updateList, hpa, if_true]
        rw [h1, h2]
        rfl
      | false =>
        have hm2 : (({ setAlloc a with pid := a.pid } : Process).name == slice) = false := hm
        have h1 : List.find? (fun p => p.name == slice)
            (({ setAlloc a with pid := a.pid } : Process) :: rest) =
            List.find? (fun p => p.name == slice) rest :=
          List.find?_cons_of_neg _ (by simp [hm2])
        have h2 : List.find? (fun p => p.name == slice) (a :: rest) =
            List.find? (fun p => p.name == slice) rest :=
          List.find?_cons_of_neg _ (by simp [hm])
        simp only [updateList, hpa, if_true]
        rw [h1, h2]
    | false =>
      cases hm : (a.name == slice) with
      | true =>
        have h1 : List.find? (fun p => p.name == slice) (a :: updateList rest pid setAlloc) =
            some a := List.find?_cons_of_pos _ hm
        have h2 : List.find? (fun p => p.name == slice) (a :: rest) = some a :=
          List.find?_cons_of_pos _ hm
        simp only [updateList, hpa, Bool.false_eq_true, if_false]
        rw [h1, h2]
      | false =>
        have h1 : List.find? (fun p => p.name == slice) (a :: updateList rest pid setAlloc) =
            List.find? (fun p => p.name == slice) (updateList rest pid setAlloc) :=
          List.find?_cons_of_neg _ (by simp [hm])
        have h2 : List.find? (fun p => p.name == slice) (a :: rest) =
            List.find? (fun p => p.name == slice) rest :=
          List.find?_cons_of_neg _ (by simp [hm])
        simp only [updateList, hpa, Bool.false_eq_true, if_false]
        rw [h1, h2]
        exact ih

/-- The spec-worded discovery result only reads names and slot indices, so
allocating a grant record does not change it. -/
theorem discoverSpec_update (s : KernelState) (pid : Nat) (slice : List Nat) :
    discoverSpec (updateProc s pid setAlloc) slice = discoverSpec s slice :=
  discoverSpecList_update pid slice s.procs

/-- Claim C1: the claim states that a queued IPC notification whose initiator
terminated between enqueue and dispatch is silently dropped with no upcall,
no MPU region and never a kernel panic, for both tags.  The code satisfies
this for Service-tagged tasks (the dispatch aborts with a local error and the
state is unchanged) but for a Client-tagged task it hits the
`panic!("Invalid app issued IPC request")` at ipc.rs line 98 — a kernel
panic, marked in the source itself with a TODO to return an error instead.
This theorem evaluates the dispatch at such a failing input: in `sC1` only
process 1 is live, so initiator 2 has no slot index; the Service dispatch is
a silent local error leaving the state untouched, while the Client dispatch
panics. -/
theorem claim_C1_stale_initiator_dispatch :
    pidIndex sC1 2 = none ∧
    schedule_upcall sC1 1 2 IPCUpcallType.Service =
      .ok (.error ProcessError.NoSuchApp, sC1) ∧
    schedule_upcall sC1 1 2 IPCUpcallType.Client =
      KResult.panicked "Invalid app issued IPC request" :=
  ⟨rfl, rfl, rfl⟩

/-- Claim C2, counterexample to the claim as stated: in `sC2` the caller
(process 6) has no readable discovery buffer, so the claim predicts the call
fails with "invalid argument"; but its grant record is unallocated and
allocation fails, so the code returns "out of memory" instead. -/
theorem claim_C2_counterexample :
    findProc sC2 6 = some epsProc ∧ epsProc.roSearch = none ∧
    (command sC2 1 0 6).1 = CommandReturn.failure ErrorCode.NOMEM ∧
    (command sC2 1 0 6).1 ≠ CommandReturn.failure ErrorCode.INVAL :=
  ⟨rfl, rfl, by decide, by decide⟩

/-- Claim C2 (amended): provided the caller's per-process IPC grant record
can be entered (already allocated, or allocation succeeds), discovery
returns the slot index of the first live process (in scan order) whose
static name is byte-for-byte equal in content and length to the caller's
read-only allow buffer 0, fails with "no such device" when no live process
matches (both captured by `discoverSpec`), and fails with "invalid argument"
when the caller's name buffer cannot be read; when grant entry fails the
call instead returns "out of memory". -/
theorem claim_C2_discovery (s : KernelState) (t appid : Nat) (p : Process)
    (hp : findProc s appid = some p) :
    (p.grantAllocated = true ∨ s.canAlloc = true →
      (p.roSearch = none →
        (command s 1 t appid).1 = CommandReturn.failure ErrorCode.INVAL) ∧
      (∀ frag, p.roSearch = some frag →
        (command s 1 t appid).1 = discoverSpec s frag)) ∧
    (p.grantAllocated = false → s.canAlloc = false →
      (command s 1 t appid).1 = CommandReturn.failure ErrorCode.NOMEM) := by
  have hcmd : command s 1 t appid =
      (match grantEnter s appid with
       | .error _ => (CommandReturn.failure ErrorCode.NOMEM, s)
       | .ok (kernel_data, s1) =>
         match kernel_data.roSearch with
         | none => (CommandReturn.failure ErrorCode.INVAL, s1)
         | some slice => (discover s1 slice, s1)) := rfl
  constructor
  · intro he
    obtain ⟨s1, hge, hca, hf1, hoth, hform⟩ := grantEnter_ok hp he
    constructor
    · intro hro
      have hro2 : (setAlloc p).roSearch = none := hro
      simp [hcmd, hge, hro2]
    · intro frag hro
      have hro2 : (setAlloc p).roSearch = some frag := hro
      have hd : discover s1 frag = discoverSpec s frag := by
        rw [discover_eq_spec]
        rcases hform with rfl | rfl
        · rfl
        · exact discoverSpec_update s appid frag
      simp [hcmd, hge, hro2, hd]
  · intro hg hc
    have hge : grantEnter s appid = .error .KernelError := by
      unfold grantEnter
      rw [hp]
      simp [hg, hc]
    simp [hcmd, hge]

/-- Claim C2, witness: in `sEx`, process 4 ("beta") holds the fragment
"alpha" in its discovery buffer, and discovery returns slot index 2, the
slot of the live process named "alpha". -/
theorem claim_C2_discovery_witness :
    (command sEx 1 0 4).1 = CommandReturn.success_u32 2 := by
  have h := ((claim_C2_discovery sEx 0 4 betaProc rfl).1 (Or.inl rfl)).2
    [97, 108, 112, 104, 97] rfl
  rw [h]
  rfl

/-- Claim C3: a service notify (command 2) or client notify (command 3)
whose target slot index matches no live process returns "invalid argument"
and leaves the whole kernel state — in particular every task queue —
unchanged. -/
theorem claim_C3_invalid_target (s : KernelState) (tid appid : Nat)
    (h : ∀ p ∈ s.procs, p.index ≠ tid) :
    command s 2 tid appid = (CommandReturn.failure ErrorCode.INVAL, s) ∧
    command s 3 tid appid = (CommandReturn.failure ErrorCode.INVAL, s) := by
  have hres : process_until s
      (fun p => if p.index == tid then some p.pid else none) = none := by
    unfold process_until
    rw [List.findSome?_eq_none_iff]
    intro p hp
    have hb : (p.index == tid) = false := beq_eq_false_iff_ne.mpr (h p hp)
    simp [hb]
  constructor
  · show notify s tid appid IPCUpcallType.Service = _
    unfold notify
    rw [hres]
  · show notify s tid appid IPCUpcallType.Client = _
    unfold notify
    rw [hres]

/-- Claim C3, witness: in `sEx` no live process occupies slot 9, so both
notify flavours fail with "invalid argument" and change nothing. -/
theorem claim_C3_invalid_target_witness :
    command sEx 2 9 1 = (CommandReturn.failure ErrorCode.INVAL, sEx) ∧
    command sEx 3 9 1 = (CommandReturn.failure ErrorCode.INVAL, sEx) :=
  claim_C3_invalid_target sEx 9 1 (by decide)

/-- Claim C4: when a notify's target resolves to a live process, an enqueue
failure with "off" is still reported as success (and changes nothing), any
other enqueue failure code is returned unchanged (and changes nothing), and
a successful enqueue returns success immediately with the task appended to
the target's queue as the only state change — in particular no upcall has
run. -/
theorem claim_C4_enqueue_outcomes (s : KernelState) (cn tid appid pid : Nat)
    (cb : IPCUpcallType) (p : Process)
    (hcb : (cn = 2 ∧ cb = IPCUpcallType.Service) ∨ (cn = 3 ∧ cb = IPCUpcallType.Client))
    (hr : process_until s (fun q => if q.index == tid then some q.pid else none) = some pid)
    (hp : findProc s pid = some p) :
    (p.enqueueErr = some ErrorCode.OFF →
      command s cn tid appid = (CommandReturn.success, s)) ∧
    (∀ e, p.enqueueErr = some e → e ≠ ErrorCode.OFF →
      command s cn tid appid = (CommandReturn.failure e, s)) ∧
    (p.enqueueErr = none →
      command s cn tid appid = (CommandReturn.success,
        updateProc s pid (fun q => { q with tasks := q.tasks ++ [Task.IPC appid cb] }))) := by
  have hcmd : command s cn tid appid = notify s tid appid cb := by
    rcases hcb with ⟨rfl, rfl⟩ | ⟨rfl, rfl⟩ <;> rfl
  refine ⟨fun he => ?_, fun e he hne => ?_, fun he => ?_⟩
  · rw [hcmd]
    unfold notify
    rw [hr]
    dsimp only
    rw [hp]
    dsimp only
    rw [he]
    rfl
  · have hb : (e == ErrorCode.OFF) = false := beq_eq_false_iff_ne.mpr hne
    rw [hcmd]
    unfold notify
    rw [hr]
    dsimp only
    rw [hp]
    dsimp only
    rw [he]
    simp [hb]
  · rw [hcmd]
    unfold notify
    rw [hr]
    dsimp only
    rw [hp]
    dsimp only
    rw [he]

/-- Claim C4, witness: in `sEx` a service notify from process 4 to slot 2
(process 1, whose enqueue succeeds) returns success with the IPC task
appended to process 1's queue. -/
theorem claim_C4_enqueue_outcomes_witness :
    command sEx 2 2 4 = (CommandReturn.success,
      updateProc sEx 1 (fun q => { q with tasks := q.tasks ++ [Task.IPC 4 IPCUpcallType.Service] })) :=
  (claim_C4_enqueue_outcomes sEx 2 2 4 1 IPCUpcallType.Service alphaProc
    (Or.inl ⟨rfl, rfl⟩) rfl rfl).2.2 rfl

/-- Claim C5: whenever a dispatched IPC task schedules an upcall on the
target, the upcall slot number is the pure function `upcallSlotFor` of the
tag and the initiator's current slot index: 0 for Service, index + 1 for
Client. -/
theorem claim_C5_upcall_slot {s : KernelState} {tgt ini : Nat} {cb : IPCUpcallType}
    {pT pF : Process}
    (hT : findProc s tgt = some pT) (hF : findProc s ini = some pF)
    (hne : tgt ≠ ini)
    (hTe : pT.grantAllocated = true ∨ s.canAlloc = true)
    (hFe : pF.grantAllocated = true ∨ s.canAlloc = true)
    (hOk : pT.upcallOk = true) :
    ∃ s' qT len ptr, schedule_upcall s tgt ini cb = .ok (.ok (), s') ∧
      findProc s' tgt = some qT ∧
      qT.scheduledUpcalls = pT.scheduledUpcalls ++
        [(upcallSlotFor cb pF.index, pF.index, len, ptr)] := by
  obtain ⟨s', hrun, ⟨qT, hfq, hidx, htk, hmpu, hsch⟩, hqf, hoth⟩ :=
    dispatch_effects cb hT hF hne hTe hFe
  rw [hOk] at hsch
  cases hb : lookupRw pF.rwAllow pT.index with
  | some b =>
    rw [hb] at hsch
    exact ⟨s', qT, b.len, b.ptr, hrun, hfq, hsch⟩
  | none =>
    rw [hb] at hsch
    exact ⟨s', qT, 0, 0, hrun, hfq, hsch⟩

/-- Claim C5, witness: a Client-tagged dispatch from initiator 4 (slot 5)
to target 1 schedules the upcall at slot 5 + 1. -/
theorem claim_C5_upcall_slot_witness :
    ∃ s' qT len ptr, schedule_upcall sEx 1 4 IPCUpcallType.Client = .ok (.ok (), s') ∧
      findProc s' 1 = some qT ∧
      qT.scheduledUpcalls = alphaProc.scheduledUpcalls ++
        [(upcallSlotFor IPCUpcallType.Client betaProc.index, betaProc.index, len, ptr)] :=
  claim_C5_upcall_slot rfl rfl (by decide) (Or.inl rfl) (Or.inl rfl) rfl

/-- Claim C6: for a dispatched task whose target and initiator are live, if
the initiator has a read-write buffer allow-bound at the index equal to the
target's slot index, an MPU region covering exactly the buffer (its length
as both requested and minimum size) is installed on the target and the
upcall carries (initiator slot index, buffer length, buffer address);
otherwise no MPU region is installed and the upcall carries
(initiator slot index, 0, 0). -/
theorem claim_C6_buffer_resolution {s : KernelState} {tgt ini : Nat}
    {cb : IPCUpcallType} {pT pF : Process}
    (hT : findProc s tgt = some pT) (hF : findProc s ini = some pF)
    (hne : tgt ≠ ini)
    (hTe : pT.grantAllocated = true ∨ s.canAlloc = true)
    (hFe : pF.grantAllocated = true ∨ s.canAlloc = true)
    (hOk : pT.upcallOk = true) :
    ∃ s' qT, schedule_upcall s tgt ini cb = .ok (.ok (), s') ∧
      findProc s' tgt = some qT ∧
      (∀ b, lookupRw pF.rwAllow pT.index = some b →
        qT.mpuRegions = pT.mpuRegions ++ [(b.ptr, b.len, b.len)] ∧
        qT.scheduledUpcalls = pT.scheduledUpcalls ++
          [(upcallSlotFor cb pF.index, pF.index, b.len, b.ptr)]) ∧
      (lookupRw pF.rwAllow pT.index = none →
        qT.mpuRegions = pT.mpuRegions ∧
        qT.scheduledUpcalls = pT.scheduledUpcalls ++
          [(upcallSlotFor cb pF.index, pF.index, 0, 0)]) := by
  obtain ⟨s', hrun, ⟨qT, hfq, hidx, htk, hmpu, hsch⟩, hqf, hoth⟩ :=
    dispatch_effects cb hT hF hne hTe hFe
  rw [hOk] at hsch
  refine ⟨s', qT, hrun, hfq, ?_, ?_⟩
  · intro b hb
    rw [hb] at hsch hmpu
    exact ⟨hmpu, hsch⟩
  · intro hb
    rw [hb] at hsch hmpu
    refine ⟨?_, hsch⟩
    simpa using hmpu

/-- Claim C6, witness: process 4 has a 16-byte buffer at 4096 allow-bound at
index 2 (the target's slot), so the Service dispatch installs MPU region
(4096, 16, 16) on the target and schedules upcall slot 0 with
(5, 16, 4096). -/
theorem claim_C6_buffer_resolution_witness :
    ∃ s' qT, schedule_upcall sEx 1 4 IPCUpcallType.Service = .ok (.ok (), s') ∧
      findProc s' 1 = some qT ∧
      qT.mpuRegions = [(4096, 16, 16)] ∧
      qT.scheduledUpcalls = [(0, 5, 16, 4096)] := by
  obtain ⟨s', qT, hrun, hfq, hsome, hnone⟩ :=
    @claim_C6_buffer_resolution sEx 1 4 IPCUpcallType.Service alphaProc betaProc
      rfl rfl (by decide) (Or.inl rfl) (Or.inl rfl) rfl
  obtain ⟨hm, hs⟩ := hsome { ptr := 4096, len := 16 } rfl
  refine ⟨s', qT, hrun, hfq, ?_, ?_⟩
  · rw [hm]
    rfl
  · rw [hs]
    rfl

/-- Claim C7, counterexample to the claim as stated: discovery by process 5
in `sC7` allocates the caller's IPC grant record on first use (the grant
entry at ipc.rs line 179), so the state after the call differs from the
state before — discovery is not free of allocation and side effects. -/
theorem claim_C7_counterexample :
    findProc sC7 5 = some deltaProc ∧ deltaProc.grantAllocated = false ∧
    (command sC7 1 0 5).2 ≠ sC7 :=
  ⟨rfl, rfl, by decide⟩

/-- Claim C7 (amended): the only state change discovery can make is the lazy
allocation of the caller's own IPC grant record on first use; in particular,
once the caller's record is allocated, discovery changes nothing at all and
is repeatable with the same result. -/
theorem claim_C7_discovery_frame (s : KernelState) (t appid : Nat) :
    ((command s 1 t appid).2 = s ∨
      (command s 1 t appid).2 = updateProc s appid setAlloc) ∧
    (∀ p, findProc s appid = some p → p.grantAllocated = true →
      (command s 1 t appid).2 = s ∧
      command ((command s 1 t appid).2) 1 t appid = command s 1 t appid) := by
  have hcmd : command s 1 t appid =
      (match grantEnter s appid with
       | .error _ => (CommandReturn.failure ErrorCode.NOMEM, s)
       | .ok (kernel_data, s1) =>
         match kernel_data.roSearch with
         | none => (CommandReturn.failure ErrorCode.INVAL, s1)
         | some slice => (discover s1 slice, s1)) := rfl
  constructor
  · cases hfp : findProc s appid with
    | none =>
      have hge : grantEnter s appid = .error .NoSuchApp := by
        unfold grantEnter
        rw [hfp]
      left
      simp [hcmd, hge]
    | some p =>
      cases hg : p.grantAllocated with
      | true =>
        have hge : grantEnter s appid = .ok (p, s) := by
          unfold grantEnter
          rw [hfp]
          simp [hg]
        left
        cases hro : p.roSearch <;> simp [hcmd, hge, hro]
      | false =>
        cases hc : s.canAlloc with
        | true =>
          have hge : grantEnter s appid = .ok (setAlloc p, updateProc s appid setAlloc) := by
            unfold grantEnter
            rw [hfp]
            simp [hg, hc]
          right
          cases hro : (setAlloc p).roSearch <;> simp [hcmd, hge, hro]
        | false =>
          have hge : grantEnter s appid = .error .KernelError := by
            unfold grantEnter
            rw [hfp]
            simp [hg, hc]
          left
          simp [hcmd, hge]
  · intro p hp hg
    have hge : grantEnter s appid = .ok (p, s) := by
      unfold grantEnter
      rw [hp]
      simp [hg]
    have h2 : (command s 1 t appid).2 = s := by
      cases hro : p.roSearch <;> simp [hcmd, hge, hro]
    exact ⟨h2, by rw [h2]⟩

/-- Claim C7, witness: process 4's grant record is already allocated in
`sEx`, so its discovery call mutates nothing and repeats identically. -/
theorem claim_C7_discovery_frame_witness :
    (command sEx 1 0 4).2 = sEx ∧
    command ((command sEx 1 0 4).2) 1 0 4 = command sEx 1 0 4 :=
  (claim_C7_discovery_frame sEx 0 4).2 betaProc rfl rfl

/-- Claim C8: command 0 always returns success and changes nothing, and any
command number other than 0, 1, 2, 3 returns "not supported" and changes
nothing. -/
theorem claim_C8_check_and_unknown :
    (∀ (s : KernelState) (t appid : Nat),
      command s 0 t appid = (CommandReturn.success, s)) ∧
    (∀ (s : KernelState) (n t appid : Nat), n ≠ 0 → n ≠ 1 → n ≠ 2 → n ≠ 3 →
      command s n t appid = (CommandReturn.failure ErrorCode.NOSUPPORT, s)) := by
  constructor
  · intro s t appid
    rfl
  · intro s n t appid h0 h1 h2 h3
    obtain ⟨m, rfl⟩ : ∃ m, n = m + 4 := ⟨n - 4, by omega⟩
    rfl

/-- Claim C8, witness: command 0 succeeds without effect and command 9 is
unsupported, at the concrete state `sEx`. -/
theorem claim_C8_check_and_unknown_witness :
    command sEx 0 0 1 = (CommandReturn.success, sEx) ∧
    command sEx 9 0 1 = (CommandReturn.failure ErrorCode.NOSUPPORT, sEx) :=
  ⟨claim_C8_check_and_unknown.1 sEx 0 1,
   claim_C8_check_and_unknown.2 sEx 9 0 1 (by decide) (by decide) (by decide) (by decide)⟩

/-- Claim C9: (1) when the target of a dispatched IPC task no longer
resolves, nothing is scheduled and the state is unchanged — a silent local
error; (2) when upcall scheduling itself fails on the target, the failure is
swallowed: the dispatch still returns cleanly, the target's scheduled
upcalls are unchanged, and no other process's state is touched. -/
theorem claim_C9_dispatch_failures :
    (∀ (s : KernelState) (tgt ini : Nat) (cb : IPCUpcallType), findProc s tgt = none →
      schedule_upcall s tgt ini cb = .ok (.error ProcessError.NoSuchApp, s)) ∧
    (∀ (s : KernelState) (tgt ini : Nat) (cb : IPCUpcallType) (pT pF : Process),
      findProc s tgt = some pT → findProc s ini = some pF → tgt ≠ ini →
      (pT.grantAllocated = true ∨ s.canAlloc = true) →
      (pF.grantAllocated = true ∨ s.canAlloc = true) →
      pT.upcallOk = false →
      ∃ s' qT, schedule_upcall s tgt ini cb = .ok (.ok (), s') ∧
        findProc s' tgt = some qT ∧
        qT.scheduledUpcalls = pT.scheduledUpcalls ∧
        (∀ pid', pid' ≠ tgt → pid' ≠ ini → findProc s' pid' = findProc s pid')) := by
  constructor
  · intro s tgt ini cb h
    have hge : grantEnter s tgt = .error .NoSuchApp := by
      unfold grantEnter
      rw [h]
    cases cb <;> simp [schedule_upcall, hge]
  · intro s tgt ini cb pT pF hT hF hne hTe hFe hOff
    obtain ⟨s', hrun, ⟨qT, hfq, hidx, htk, hmpu, hsch⟩, hqf, hoth⟩ :=
      dispatch_effects cb hT hF hne hTe hFe
    rw [hOff] at hsch
    refine ⟨s', qT, hrun, hfq, ?_, hoth⟩
    simpa using hsch

/-- Claim C9, witness: dispatching to stale target 9 in `sEx` is a silent
local error, and dispatching to process 7 in `sOff` (whose upcall slot was
never subscribed) swallows the scheduling failure. -/
theorem claim_C9_dispatch_failures_witness :
    schedule_upcall sEx 9 1 IPCUpcallType.Service =
      .ok (.error ProcessError.NoSuchApp, sEx) ∧
    (∃ s' qT, schedule_upcall sOff 7 4 IPCUpcallType.Service = .ok (.ok (), s') ∧
      findProc s' 7 = some qT ∧
      qT.scheduledUpcalls = gammaProc.scheduledUpcalls ∧
      (∀ pid', pid' ≠ 7 → pid' ≠ 4 → findProc s' pid' = findProc sOff pid')) :=
  ⟨claim_C9_dispatch_failures.1 sEx 9 1 IPCUpcallType.Service rfl,
   claim_C9_dispatch_failures.2 sOff 7 4 IPCUpcallType.Service gammaProc betaProc rfl rfl
     (by decide) (Or.inl rfl) (Or.inl rfl) rfl⟩

/-- Claim C10: a Client-tagged dispatch with a valid initiator at slot index
i schedules the upcall at slot i + 1, which is never the service upcall
slot 0 — only Service-tagged dispatches can reach slot 0. -/
theorem claim_C10_client_slot_positive {s : KernelState} {tgt ini : Nat}
    {pT pF : Process}
    (hT : findProc s tgt = some pT) (hF : findProc s ini = some pF)
    (hne : tgt ≠ ini)
    (hTe : pT.grantAllocated = true ∨ s.canAlloc = true)
    (hFe : pF.grantAllocated = true ∨ s.canAlloc = true)
    (hOk : pT.upcallOk = true) :
    ∃ s' qT len ptr, schedule_upcall s tgt ini IPCUpcallType.Client = .ok (.ok (), s') ∧
      findProc s' tgt = some qT ∧
      qT.scheduledUpcalls = pT.scheduledUpcalls ++
        [(pF.index + CLIENT_UPCALL_NUM_BASE, pF.index, len, ptr)] ∧
      pF.index + CLIENT_UPCALL_NUM_BASE ≠ SERVICE_UPCALL_NUM := by
  obtain ⟨s', hrun, ⟨qT, hfq, hidx, htk, hmpu, hsch⟩, hqf, hoth⟩ :=
    dispatch_effects IPCUpcallType.Client hT hF hne hTe hFe
  rw [hOk] at hsch
  have hpos : pF.index + CLIENT_UPCALL_NUM_BASE ≠ SERVICE_UPCALL_NUM := by
    simp [CLIENT_UPCALL_NUM_BASE, SERVICE_UPCALL_NUM]
  cases hb : lookupRw pF.rwAllow pT.index with
  | some b =>
    rw [hb] at hsch
    exact ⟨s', qT, b.len, b.ptr, hrun, hfq, hsch, hpos⟩
  | none =>
    rw [hb] at hsch
    exact ⟨s', qT, 0, 0, hrun, hfq, hsch, hpos⟩

/-- Claim C10, witness: the Client dispatch from initiator 4 (slot 5) to
target 1 lands at slot 6, not the service slot 0. -/
theorem claim_C10_client_slot_positive_witness :
    ∃ s' qT len ptr, schedule_upcall sEx 1 4 IPCUpcallType.Client = .ok (.ok (), s') ∧
      findProc s' 1 = some qT ∧
      qT.scheduledUpcalls = alphaProc.scheduledUpcalls ++
        [(betaProc.index + CLIENT_UPCALL_NUM_BASE, betaProc.index, len, ptr)] ∧
      betaProc.index + CLIENT_UPCALL_NUM_BASE ≠ SERVICE_UPCALL_NUM :=
  claim_C10_client_slot_positive rfl rfl (by decide) (Or.inl rfl) (Or.inl rfl) rfl

end TockIPC
